import Mathlib

/-!
Verification of the FundingRateLogger core pipeline.

This file is a shallow embedding, in Lean 4, of the funding-event scheduling
and data-collection pipeline of the FundingRateLogger repository
(src/pipeline/funding_rate_logger.py, src/utils/funding_rate_cache.py and the
relevant parts of src/api/contract_client.py), together with theorems settling
the stated properties of that pipeline.

Modelling conventions:
- Python strings are modelled as lists of characters (the type Str below);
  the helper functions pySplitChar, pyStrip, pyReplaceCharN, pyReadlines
  reproduce the semantics of the corresponding Python string methods for the
  single-character patterns the source uses.
- Instants (datetime values in UTC) are modelled as integer microseconds since
  the Unix epoch; civil (year/month/day) conversions use the standard
  proleptic-Gregorian algorithms, matching CPython's datetime for the
  year range 1..9999.
- Funding rates (Python floats originating from decimal strings) are modelled
  as rationals; the foreign serialisation boundary (str(float) and float(str))
  is a parameter of the cache model, with round-trip assumptions made explicit
  in the theorems, matching the up-to-serialisation-precision reading.
- Exceptions are modelled with Except; a Python statement sequence that can
  raise becomes monadic sequencing, so an uncaught exception aborts the rest
  of the computation exactly as in the source.
-/

namespace FundingRateLogger

/-- Python strings, modelled as lists of characters. -/
abbrev Str := List Char

/-- Python single-character str.split: splits on every occurrence of the
separator, keeping empty parts; the result is always nonempty. -/
def pySplitChar (sep : Char) : Str → List Str
  | [] => [[]]
  | c :: rest =>
    match pySplitChar sep rest with
    | [] => [[]]
    | g :: gs => if c = sep then [] :: g :: gs else (c :: g) :: gs

/-- Whitespace characters stripped by Python str.strip (ASCII subset). -/
def pyIsSpace (c : Char) : Bool :=
  c = ' ' || c = '\t' || c = '\n' || c = '\r' || c = '\x0b' || c = '\x0c'

/-- Python str.strip: removes whitespace from both ends. -/
def pyStrip (s : Str) : Str :=
  ((s.dropWhile pyIsSpace).reverse.dropWhile pyIsSpace).reverse

/-- Python str.replace(old, new, count) for single-character patterns:
replaces the first n occurrences of a by b. -/
def pyReplaceCharN (a b : Char) : Nat → Str → Str
  | _, [] => []
  | 0, l => l
  | n + 1, c :: rest =>
    if c = a then b :: pyReplaceCharN a b n rest
    else c :: pyReplaceCharN a b (n + 1) rest

/-- Python str.replace(old, new) for single-character patterns:
replaces every occurrence of a by b. -/
def pyReplaceChar (a b : Char) (s : Str) : Str :=
  s.map fun c => if c = a then b else c

/-- Python file.readlines: splits a file's text into lines, each line keeping
its terminating newline; a final fragment without a newline is also a line. -/
def pyReadlines : Str → List Str
  | [] => []
  | c :: s =>
    if c = '\n' then ['\n'] :: pyReadlines s
    else
      match pyReadlines s with
      | [] => [[c]]
      | l :: ls => (c :: l) :: ls

/-- Decimal digit character of n % 10. -/
def digit (n : Nat) : Char := Nat.digitChar (n % 10)

/-- Zero-padded two-digit decimal rendering (Python %02d for n < 100). -/
def pad2 (n : Nat) : Str := [digit (n / 10), digit n]

/-- Zero-padded four-digit decimal rendering (Python %04d for n < 10000). -/
def pad4 (n : Nat) : Str := [digit (n / 1000), digit (n / 100), digit (n / 10), digit n]

/-- Zero-padded six-digit decimal rendering (Python %06d for n < 1000000). -/
def pad6 (n : Nat) : Str :=
  [digit (n / 100000), digit (n / 10000), digit (n / 1000), digit (n / 100),
   digit (n / 10), digit n]

/-- Microseconds per second. -/
def usPerSecond : Int := 1000000

/-- Microseconds per minute. -/
def usPerMinute : Int := 60000000

/-- Microseconds per hour. -/
def usPerHour : Int := 3600000000

/-- Microseconds per day. -/
def usPerDay : Int := 86400000000

/-- Civil date (year, month, day) of a day count since the Unix epoch,
proleptic Gregorian calendar (the standard days-to-civil algorithm, as
implemented by CPython's datetime for years 1..9999). -/
def civilFromDays (z0 : Int) : Int × Nat × Nat :=
  let z := z0 + 719468
  let era : Int := z.fdiv 146097
  let doe : Nat := (z - era * 146097).toNat
  let yoe : Nat := (doe - doe / 1460 + doe / 36524 - doe / 146096) / 365
  let y : Int := (yoe : Int) + era * 400
  let doy : Nat := doe - (365 * yoe + yoe / 4 - yoe / 100)
  let mp : Nat := (5 * doy + 2) / 153
  let d : Nat := doy - (153 * mp + 2) / 5 + 1
  let m : Nat := if mp < 10 then mp + 3 else mp - 9
  (if m ≤ 2 then y + 1 else y, m, d)

/-- Day count since the Unix epoch of a civil date (inverse of
civilFromDays on valid dates). -/
def daysFromCivil (y0 : Int) (m d : Nat) : Int :=
  let y := if m ≤ 2 then y0 - 1 else y0
  let era : Int := y.fdiv 400
  let yoe : Nat := (y - era * 400).toNat
  let mp : Nat := if 3 ≤ m then m - 3 else m + 9
  let doy : Nat := (153 * mp + 2) / 5 + d - 1
  let doe : Nat := yoe * 365 + yoe / 4 - yoe / 100 + doy
  era * 146097 + (doe : Int) - 719468

/-- Python datetime.fromtimestamp(sec, timezone.utc).isoformat() behaviour on
an epoch-microseconds instant: zero-padded civil UTC fields, a fractional part
only when the microseconds are nonzero, and the fixed +00:00 offset of an
aware UTC datetime. -/
def pyIsoformatUTC (t : Int) : Str :=
  let s := t.fdiv usPerSecond
  let us := (t.emod usPerSecond).toNat
  let days := s.fdiv 86400
  let sod := (s.emod 86400).toNat
  let ymd := civilFromDays days
  pad4 ymd.1.toNat ++ ['-'] ++ pad2 ymd.2.1 ++ ['-'] ++ pad2 ymd.2.2 ++ ['T'] ++
    pad2 (sod / 3600) ++ [':'] ++ pad2 (sod / 60 % 60) ++ [':'] ++ pad2 (sod % 60) ++
    (if us = 0 then [] else '.' :: pad6 us) ++ ['+', '0', '0', ':', '0', '0']

/-- Result of datetime.fromisoformat: the instant (microseconds since the
epoch, offset-adjusted when an offset was present) and whether the parsed
datetime is timezone-aware. -/
structure IsoResult where
  epochUs : Int
  aware : Bool
deriving DecidableEq

/-- Two decimal digit characters to their value. -/
def parse2 (a b : Char) : Option Nat :=
  if a.isDigit && b.isDigit then some ((a.toNat - 48) * 10 + (b.toNat - 48)) else none

/-- Gregorian leap-year test. -/
def isLeapYear (y : Int) : Bool :=
  (decide (y.emod 4 = 0) && !decide (y.emod 100 = 0)) || decide (y.emod 400 = 0)

/-- Number of days in a month. -/
def daysInMonth (y : Int) (m : Nat) : Nat :=
  if m = 2 then (if isLeapYear y then 29 else 28)
  else if m = 4 ∨ m = 6 ∨ m = 9 ∨ m = 11 then 30
  else 31

/-- Fractional-seconds part of an ISO string: one to six digits after the
point, scaled to microseconds; returns the remainder of the input. -/
def parseFrac (s : Str) : Option (Nat × Str) :=
  let ds := s.takeWhile Char.isDigit
  if 1 ≤ ds.length ∧ ds.length ≤ 6 then
    some ((ds.foldl (fun acc c => acc * 10 + (c.toNat - 48)) 0) * 10 ^ (6 - ds.length),
      s.dropWhile Char.isDigit)
  else none

/-- UTC-offset suffix of an ISO string: absent, Z, or a signed hh:mm offset in
seconds. -/
def parseOffset (s : Str) : Option (Option Int) :=
  match s with
  | [] => some none
  | ['Z'] => some (some 0)
  | c :: h1 :: h2 :: ':' :: m1 :: m2 :: [] =>
    if c = '+' ∨ c = '-' then
      match parse2 h1 h2, parse2 m1 m2 with
      | some hh, some mm =>
        if hh < 24 ∧ mm < 60 then
          some (some ((if c = '-' then -1 else 1) * ((hh : Int) * 3600 + mm * 60)))
        else none
      | _, _ => none
    else none
  | _ => none

/-- Time-of-day part of an ISO string (after the separator): hours, minutes,
seconds, microseconds and optional offset. Extended format (colon-separated),
as produced by datetime.isoformat. -/
def parseTimeOfDay (s : Str) : Option (Nat × Nat × Nat × Nat × Option Int) :=
  match s with
  | h1 :: h2 :: rest =>
    match parse2 h1 h2 with
    | none => none
    | some hh =>
      if 24 ≤ hh then none
      else
        match rest with
        | ':' :: m1 :: m2 :: rest2 =>
          match parse2 m1 m2 with
          | none => none
          | some mm =>
            if 60 ≤ mm then none
            else
              match rest2 with
              | ':' :: s1 :: s2 :: rest3 =>
                match parse2 s1 s2 with
                | none => none
                | some ss =>
                  if 60 ≤ ss then none
                  else
                    match rest3 with
                    | '.' :: fr =>
                      match parseFrac fr with
                      | none => none
                      | some (us, rest4) =>
                        (parseOffset rest4).map fun off => (hh, mm, ss, us, off)
                    | _ => (parseOffset rest3).map fun off => (hh, mm, ss, 0, off)
              | _ => (parseOffset rest2).map fun off => (hh, mm, 0, 0, off)
        | _ => (parseOffset rest).map fun off => (hh, 0, 0, 0, off)
  | _ => none

/-- Python datetime.fromisoformat, for the extended (hyphen/colon separated)
format that datetime.isoformat emits: YYYY-MM-DD, optionally followed by a
separator character, a time of day and a UTC offset. Malformed input (in
particular any string whose date part is not hyphen-separated) yields none,
modelling the ValueError the real function raises. -/
def pyFromIso (s : Str) : Option IsoResult :=
  match s with
  | y1 :: y2 :: y3 :: y4 :: sep1 :: m1 :: m2 :: sep2 :: d1 :: d2 :: rest =>
    if decide (sep1 = '-') && decide (sep2 = '-') && y1.isDigit && y2.isDigit &&
        y3.isDigit && y4.isDigit then
      let y : Int :=
        ((y1.toNat - 48) * 1000 + (y2.toNat - 48) * 100 + (y3.toNat - 48) * 10 +
          (y4.toNat - 48) : Nat)
      match parse2 m1 m2, parse2 d1 d2 with
      | some mo, some dd =>
        if 1 ≤ y ∧ 1 ≤ mo ∧ mo ≤ 12 ∧ 1 ≤ dd ∧ dd ≤ daysInMonth y mo then
          let dayUs := daysFromCivil y mo dd * usPerDay
          match rest with
          | [] => some ⟨dayUs, false⟩
          | _sep :: timeRest =>
            match parseTimeOfDay timeRest with
            | none => none
            | some (hh, mm, ss, us, off) =>
              let wall := dayUs + ((hh : Int) * 3600 + mm * 60 + ss) * usPerSecond + us
              match off with
              | none => some ⟨wall, false⟩
              | some o => some ⟨wall - o * usPerSecond, true⟩
        else none
      | _, _ => none
    else none
  | _ => none

/-! ### Snapshot Cache: filenames and the expiry scan
(src/utils/funding_rate_cache.py) -/

/-- Timestamp embedded in a cache filename: funding_time.isoformat() with
colons replaced by hyphens (cache_top_symbols, line 35). -/
def safeTimestamp (t : Int) : Str := pyReplaceChar ':' '-' (pyIsoformatUTC t)

/-- Cache filename for a funding instant (cache_top_symbols, line 36). -/
def cacheFilenameStr (t : Int) : Str :=
  "top3symbols_".toList ++ safeTimestamp t ++ ".txt".toList

/-- Path.stem for a filename matching the glob top3symbols_*.txt: the name
without its .txt extension. -/
def stemOfTxt (s : Str) : Str := s.take (s.length - 4)

/-- The timestamp-unmangling chain of cleanup_old_caches line 101:
replace("-", ":", 2), then replace("-", ":"), then the identity
replace("+", "+"), then replace("-", ":", 1). -/
def cleanupIsoStr (timestampStr : Str) : Str :=
  pyReplaceCharN '-' ':' 1
    (pyReplaceChar '+' '+'
      (pyReplaceChar '-' ':' (pyReplaceCharN '-' ':' 2 timestampStr)))

/-- File time that cleanup_old_caches tries to recover from a cache filename:
the last underscore-separated field of the stem, unmangled, then parsed with
datetime.fromisoformat. -/
def cleanupFileTime (filename : Str) : Option IsoResult :=
  pyFromIso (cleanupIsoStr ((pySplitChar '_' (stemOfTxt filename)).getLastD []))

/-- Whether cleanup_old_caches deletes the given file, for a given cutoff
instant (cutoff = now - max_age_hours). A parse failure is swallowed by the
bare except and the file is skipped; so is the TypeError raised by comparing
a naive parsed datetime with the aware cutoff. -/
def cleanupDeletesFile (filename : Str) (cutoffUs : Int) : Bool :=
  match cleanupFileTime filename with
  | none => false
  | some r => if r.aware then decide (r.epochUs < cutoffUs) else false

/-! ### Funding-Clock (src/pipeline/funding_rate_logger.py,
get_next_funding_times and the minute-of-hour gate) -/

/-- Hour-of-day component of a UTC instant (datetime.hour). -/
def hourOfDay (t : Int) : Int := (t.fdiv usPerHour).emod 24

/-- Minute-of-hour component of a UTC instant (datetime.minute). -/
def minuteOfHour (t : Int) : Int := (t.fdiv usPerMinute).emod 60

/-- Midnight of the UTC day containing the instant. -/
def dayStartOf (t : Int) : Int := t.fdiv usPerDay * usPerDay

/-- Sort key of get_next_funding_times (lines 270-277): the absolute
hour-of-day difference to the reference time, with instants more than one
hour in the past sent to the end (the float inf key). -/
def fundingSortKey (referenceTime dt : Int) : WithTop Nat :=
  if (dt < referenceTime ∧ referenceTime - dt ≤ usPerHour) ∨ referenceTime ≤ dt then
    ((hourOfDay dt - hourOfDay referenceTime).natAbs : WithTop Nat)
  else ⊤

/-- Comparison used by the stable sort in get_next_funding_times. -/
def fundingKeyLE (referenceTime a b : Int) : Prop :=
  fundingSortKey referenceTime a ≤ fundingSortKey referenceTime b

instance (r : Int) : DecidableRel (fundingKeyLE r) := fun a b =>
  inferInstanceAs (Decidable (fundingSortKey r a ≤ fundingSortKey r b))

/-- get_next_funding_times (lines 252-279): every hour boundary of the
reference instant's UTC day, plus 23:00 of the previous day and 00:00 of the
next day, sorted stably by the proximity key. Python's sorted is a stable
sort, so it agrees with insertionSort for the same total preorder. -/
def get_next_funding_times (referenceTime : Int) : List Int :=
  let dayStart := dayStartOf referenceTime
  let times := (List.range 24).map (fun h : Nat => dayStart + (h : Int) * usPerHour)
      ++ [dayStart - usPerHour, dayStart + 24 * usPerHour]
  List.insertionSort (fundingKeyLE referenceTime) times

/-- Minute-of-hour gate of log_funding_snapshot (line 115): the ranking phase
is skipped iff current_minute < 30 or current_minute > 45. -/
def preRankingActive (t : Int) : Bool :=
  !(decide (minuteOfHour t < 30) || decide (45 < minuteOfHour t))

/-! ### Symbol Ranker (fetch_top_symbols, lines 28-82, and
MEXCContractClient.get_top_funding_rates, contract_client.py lines 222-242).

The exchange collaborator's bulk response is an input of the model: a list of
funding quotes, one per queried symbol. Funding rates (floats parsed from the
exchange's decimal strings) are modelled as rationals; nextSettleTime is epoch
milliseconds, with 0 standing for an absent field, exactly as in the source.
The per-symbol fallback lookup client.get_next_funding_time is a function
parameter. -/

/-- One funding-rate quote as returned by the exchange collaborator. -/
structure Quote where
  symbol : String
  fundingRate : ℚ
  nextSettleTime : Int
deriving DecidableEq

/-- Descending order on the absolute funding rate, the sort key of
get_top_funding_rates (contract_client.py line 236). -/
def absRateGE (a b : Quote) : Prop := |b.fundingRate| ≤ |a.fundingRate|

instance : DecidableRel absRateGE := fun a b =>
  inferInstanceAs (Decidable (|b.fundingRate| ≤ |a.fundingRate|))

instance : IsTotal Quote absRateGE := ⟨fun a b => le_total |b.fundingRate| |a.fundingRate|⟩

instance : IsTrans Quote absRateGE := ⟨fun _ _ _ h1 h2 => le_trans h2 h1⟩

/-- get_top_funding_rates: sort the gathered quotes by descending absolute
funding rate (Python's stable sorted with reverse=True keeps the original
order of equal keys, as insertionSort does) and keep the first top_n. -/
def get_top_funding_rates (allRates : List Quote) (topN : Nat) : List Quote :=
  (List.insertionSort absRateGE allRates).take topN

/-- Signed minutes until a settlement given in epoch milliseconds, from a
now given in epoch seconds: (next_settle_time / 1000 - now.timestamp()) / 60
(fetch_top_symbols lines 64-66), in exact arithmetic. -/
def minutesUntilFunding (nextSettleMs : Int) (nowSec : ℚ) : ℚ :=
  ((nextSettleMs : ℚ) / 1000 - nowSec) / 60

/-- Effective settlement time of a quote: the embedded nextSettleTime if
nonzero, otherwise the per-symbol fallback lookup (lines 56-61). -/
def effectiveSettleTime (lookup : String → Int) (q : Quote) : Int :=
  if q.nextSettleTime = 0 then lookup q.symbol else q.nextSettleTime

/-- Candidate filter of fetch_top_symbols lines 63-71: a positive settlement
time whose minutes-until-funding lies in the half-open window. -/
def fundingWindowOk (minM maxM : ℚ) (nowSec : ℚ) (nst : Int) : Bool :=
  decide (0 < nst) && decide (minM < minutesUntilFunding nst nowSec) &&
    decide (minutesUntilFunding nst nowSec ≤ maxM)

/-- The selection loop of fetch_top_symbols lines 53-76: scan the pre-ranked
quotes, append each qualifying symbol, and break once the count reaches
top_n (the break test runs after the append). The second argument is the
count of symbols already selected. -/
def selectSymbols (qual : Quote → Bool) (topN : Nat) : List Quote → Nat → List String
  | [], _ => []
  | q :: rest, k =>
    if qual q then
      if topN ≤ k + 1 then [q.symbol]
      else q.symbol :: selectSymbols qual topN rest (k + 1)
    else selectSymbols qual topN rest k

/-- fetch_top_symbols (lines 28-82): ask the collaborator for the
min(top_n * 5, len(universe)) highest-magnitude quotes, then keep the first
top_n whose effective settlement falls inside the minute window. Returns
bare symbol names, as the source does. -/
def fetch_top_symbols (symbolUniverse : List String) (allRates : List Quote)
    (lookup : String → Int) (nowSec : ℚ) (topN : Nat) (minM maxM : ℚ) : List String :=
  let fetchCount := min (topN * 5) symbolUniverse.length
  let topRates := get_top_funding_rates allRates fetchCount
  selectSymbols
    (fun q => fundingWindowOk minM maxM nowSec (effectiveSettleTime lookup q))
    topN topRates 0

/-! ### Snapshot Cache: file content (cache_top_symbols and
load_cached_symbols, src/utils/funding_rate_cache.py lines 17-80).

The store and load functions are parameterised by the foreign float
serialisation boundary: printRate models Python's f-string rendering of a
float and parseFloat models float(str), with ValueError as none. Python being
dynamically typed, the store's input elements are modelled by PyVal: either a
plain string (what fetch_top_symbols actually returns) or a dict with symbol
and fundingRate keys (what the function's docstring expects). -/

/-- Python exceptions relevant to the pipeline. -/
inductive PyErr where
  | typeError
  | valueError
  | runtimeError
deriving DecidableEq

instance {ε α : Type} [DecidableEq ε] [DecidableEq α] : DecidableEq (Except ε α) :=
  fun a b =>
    match a, b with
    | .ok x, .ok y =>
      if h : x = y then isTrue (by rw [h])
      else isFalse fun hc => h (Except.ok.inj hc)
    | .error x, .error y =>
      if h : x = y then isTrue (by rw [h])
      else isFalse fun hc => h (Except.error.inj hc)
    | .ok _, .error _ => isFalse fun hc => Except.noConfusion hc
    | .error _, .ok _ => isFalse fun hc => Except.noConfusion hc

/-- One cached entry: a symbol and its funding rate. -/
structure CacheEntry where
  symbol : Str
  fundingRate : ℚ
deriving DecidableEq

/-- A dynamically typed element reaching the cache layer: either a bare
symbol string or a symbol/fundingRate dict. -/
inductive PyVal where
  | pstr (s : Str)
  | pdict (e : CacheEntry)
deriving DecidableEq

/-- One iteration of the write loop of cache_top_symbols (lines 40-43):
subscripting a dict yields its symbol field and the line
f-string symbol,funding_rate newline is written; subscripting a plain string
with the key symbol raises TypeError before anything is written. -/
def cacheLine (printRate : ℚ → Str) : PyVal → Except PyErr Str
  | .pstr _ => .error .typeError
  | .pdict e => .ok (e.symbol ++ [','] ++ printRate e.fundingRate ++ ['\n'])

/-- cache_top_symbols (lines 17-45): write one line per element; the file
content is the concatenation of the lines, and an exception in any iteration
aborts the remaining ones and escapes. -/
def cache_top_symbols (printRate : ℚ → Str) (symbolsData : List PyVal) :
    Except PyErr Str :=
  (symbolsData.mapM (cacheLine printRate)).map fun lines => lines.foldr (· ++ ·) []

/-- One line of a cache file, parsed as in load_cached_symbols lines 69-79:
strip, split on commas; two or more fields give a symbol and a funding rate
(defaulted to 0 when float() raises ValueError); a single nonempty field is
the legacy bare-symbol format with rate 0; anything else is skipped. -/
def parseCacheLine (parseFloat : Str → Option ℚ) (line : Str) : Option CacheEntry :=
  match pySplitChar ',' (pyStrip line) with
  | p0 :: p1 :: _ => some ⟨p0, (parseFloat p1).getD 0⟩
  | [p0] => if p0.isEmpty then none else some ⟨p0, 0⟩
  | [] => none

/-- load_cached_symbols (lines 48-80) applied to a file's text: parse each
line in order, keeping the successful ones. -/
def load_cached_symbols (parseFloat : Str → Option ℚ) (content : Str) :
    List CacheEntry :=
  (pyReadlines content).filterMap (parseCacheLine parseFloat)

/-- load_cached_symbols at the filesystem level: a missing file yields the
empty list (the file_path.exists() check, line 67). -/
def load_cached_symbols_fs (parseFloat : Str → Option ℚ) (file : Option Str) :
    List CacheEntry :=
  match file with
  | none => []
  | some content => load_cached_symbols parseFloat content

/-! ### Collection Orchestrator (log_funding_snapshot, lines 84-149, and
collect_and_save_data, lines 151-237). -/

/-- Element conversion performed by str.join: a plain string passes through,
anything else raises TypeError. -/
def pyJoinElem : PyVal → Except PyErr Str
  | .pstr s => .ok s
  | .pdict _ => .error .typeError

/-- Python ", ".join(elems): concatenates after converting every element,
raising TypeError at the first non-string element. -/
def pyJoin (elems : List PyVal) : Except PyErr Str :=
  (elems.mapM pyJoinElem).map fun parts => (parts.intersperse (", ".toList)).foldr (· ++ ·) []

/-- The per-symbol collection loop of log_funding_snapshot lines 142-143:
each iteration invokes the collector; an exception aborts the loop and
escapes. Returns the prefix of elements actually attempted and the escaping
exception, if any. -/
def runSymbolLoop (collect : α → Except PyErr Unit) : List α → List α × Option PyErr
  | [] => ([], none)
  | s :: rest =>
    match collect s with
    | .ok _ =>
      let r := runSymbolLoop collect rest
      (s :: r.1, r.2)
    | .error e => ([s], some e)

/-- collect_and_save_data (lines 151-237): four sequential price-history
fetches followed by the save step; the except block logs and re-raises, so
any failure escapes to the caller. The fetches and the save are oracles of
the model. -/
def collect_and_save_data (fetchRes : String → Except PyErr Unit)
    (saveStep : Except PyErr Unit) : Except PyErr Unit := do
  fetchRes "Day1"
  fetchRes "Min60"
  fetchRes "Min5"
  fetchRes "Min1"
  saveStep

/-- Signed minutes since a settlement instant:
(now - funding_time).total_seconds() / 60 (line 135), in exact arithmetic on
epoch microseconds. -/
def minutesSince (now ft : Int) : ℚ := ((now - ft : Int) : ℚ) / 60000000

/-- The body of the post-settlement branch for one instant (lines 138-146):
load the cached entries; an empty cache is logged and skipped; otherwise the
entries are interpolated into the log message via ", ".join (which raises
TypeError on the dict entries load_cached_symbols returns) and then each
entry is passed to the collector. Returns the entries actually passed to the
collector and the escaping exception, if any. -/
def collectForInstant (parseFloat : Str → Option ℚ) (file : Option Str)
    (collect : CacheEntry → Except PyErr Unit) : List CacheEntry × Option PyErr :=
  let cached := load_cached_symbols_fs parseFloat file
  if cached.isEmpty then ([], none)
  else
    match pyJoin (cached.map PyVal.pdict) with
    | .error e => ([], some e)
    | .ok _ => runSymbolLoop collect cached

/-- The post-settlement collection loop of log_funding_snapshot lines
134-146: every scheduled instant whose minutes-since value lies in [15, 30]
is processed; an exception raised while processing one instant aborts the
remaining instants and escapes (the except block at lines 147-149 logs and
re-raises). Returns all entries passed to the collector and the escaping
exception, if any. -/
def postCollectionPhase (parseFloat : Str → Option ℚ) (fs : Int → Option Str)
    (collect : CacheEntry → Except PyErr Unit) (now : Int) :
    List Int → List CacheEntry × Option PyErr
  | [] => ([], none)
  | ft :: rest =>
    if 15 ≤ minutesSince now ft ∧ minutesSince now ft ≤ 30 then
      match collectForInstant parseFloat (fs ft) collect with
      | (attempted, some e) => (attempted, some e)
      | (attempted, none) =>
        let r := postCollectionPhase parseFloat fs collect now rest
        (attempted ++ r.1, r.2)
    else postCollectionPhase parseFloat fs collect now rest

/-- The except handler of fetch_top_symbols (lines 80-82): any exception in
the ranking body is caught and the empty list returned. -/
def fetchTopSymbolsRescue (body : Except PyErr (List String)) : List String :=
  match body with
  | .ok l => l
  | .error _ => []

/-- The ranking-phase store step of log_funding_snapshot line 128: the
symbols fetch_top_symbols returned (bare strings) are handed to
cache_top_symbols. -/
def rankingStoreStep (printRate : ℚ → Str) (symbolsInWindow : List String) :
    Except PyErr Str :=
  cache_top_symbols printRate (symbolsInWindow.map fun s => PyVal.pstr s.toList)

/-! ### Sink (save_data_to_csv, lines 297-373).

The collected candle data arrives either row-oriented (a list of candles,
each a list whose head is the open time) or columnar (a dict of parallel
arrays under the keys time/open/high/low/close/vol). Open times can be
numbers or numeric strings; the remaining OHLCV values are opaque to the
writer and modelled by a type parameter. -/

/-- Python int(s) for a decimal string: optional surrounding whitespace, an
optional sign, then digits; anything else raises ValueError (none). -/
def pyIntOfStr (s0 : Str) : Option Int :=
  let s := pyStrip s0
  let core : Str → Option Nat := fun ds =>
    if ds.isEmpty || !ds.all Char.isDigit then none
    else some (ds.foldl (fun acc c => acc * 10 + (c.toNat - 48)) 0)
  match s with
  | '-' :: ds => (core ds).map fun n => -(n : Int)
  | '+' :: ds => (core ds).map fun n => (n : Int)
  | ds => (core ds).map fun n => (n : Int)

/-- A bar open time as it reaches the writer: a number or a string. -/
inductive TimeCell where
  | num (n : Int)
  | str (s : Str)
deriving DecidableEq

/-- Epoch milliseconds of a time cell, as computed at lines 346 and 361:
int(x) for a string (ValueError is none), the value itself otherwise. -/
def timeCellMs : TimeCell → Option Int
  | .num n => some n
  | .str s => pyIntOfStr s

/-- Candle data for one resolution: columnar dict-of-arrays (with a time
key) or a row list, each row a time cell followed by the remaining values. -/
inductive Candles (α : Type) where
  | columnar (time : List TimeCell) (openV highV lowV closeV volV : List α)
  | rows (l : List (TimeCell × List α))

/-- The bars the writer emits for columnar data (lines 344-357): one row per
index of the time array at which all six arrays are long enough. Each bar
carries its five values in column order. -/
def completeBars (time : List TimeCell) (o h l c v : List α) :
    List (TimeCell × List α) :=
  (List.range time.length).filterMap fun i =>
    match time.get? i, o.get? i, h.get? i, l.get? i, c.get? i, v.get? i with
    | some t, some a, some b, some x, some d, some e => some (t, [a, b, x, d, e])
    | _, _, _, _, _, _ => none

/-- The bars the writer emits for one resolution's candle data. -/
def barsOf : Candles α → List (TimeCell × List α)
  | .columnar t o h l c v => completeBars t o h l c v
  | .rows l => l

/-- One CSV cell: text produced by the writer, or an OHLCV value passed
through. -/
inductive Cell (α : Type) where
  | txt (s : Str)
  | val (v : α)
deriving DecidableEq

/-- The fixed header row written at line 332. -/
def csvHeader (α : Type) : List (Cell α) :=
  [Cell.txt "Symbol".toList, Cell.txt "FundingTime".toList, Cell.txt "Interval".toList,
   Cell.txt "Timestamp".toList, Cell.txt "Open".toList, Cell.txt "High".toList,
   Cell.txt "Low".toList, Cell.txt "Close".toList, Cell.txt "Volume".toList]

/-- One data row (lines 347-357 and 362-368): symbol, the funding time's ISO
form, the resolution label, the bar open time converted from epoch
milliseconds to an ISO-8601 UTC timestamp (int division by 1000 to seconds,
then fromtimestamp(., timezone.utc).isoformat()), then the remaining values.
Fails when a string open time is not numeric (int() raises). -/
def csvDataRow (symbol : Str) (fundingTime : Int) (interval : Str)
    (bar : TimeCell × List α) : Option (List (Cell α)) :=
  (timeCellMs bar.1).map fun ms =>
    [Cell.txt symbol, Cell.txt (pyIsoformatUTC fundingTime), Cell.txt interval,
      Cell.txt (pyIsoformatUTC (ms.fdiv 1000 * usPerSecond))] ++ bar.2.map Cell.val

/-- save_data_to_csv (lines 297-373): the header row, then for each
resolution in input order one data row per emitted bar. A ValueError while
converting an open time escapes (the except block re-raises), modelled by
none. -/
def save_data_to_csv (symbol : Str) (fundingTime : Int)
    (candleData : List (Str × Candles α)) : Option (List (List (Cell α))) :=
  (candleData.mapM fun p => (barsOf p.2).mapM (csvDataRow symbol fundingTime p.1)).map
    fun rowBlocks => csvHeader α :: rowBlocks.foldr (· ++ ·) []

/-! ### Theorems -/

/-- Claim C5 (counterexample): at minute-of-hour exactly 30 the ranking gate
is active, contradicting the claim that no ranking call is made at minute 30
(the source gate is current_minute < 30 or current_minute > 45, so minute 30
passes). The instant is 1970-01-01T00:30:00Z. -/
theorem ranking_active_at_minute_30 :
    preRankingActive (1800000000 : Int) = true ∧
      minuteOfHour (1800000000 : Int) = 30 := by
  constructor <;> decide

/-- Claim C5 (amended): the pre-settlement ranking phase is active exactly
when the minute-of-hour lies in the closed interval [30, 45]; minute 30 is
included. -/
theorem ranking_window_iff (t : Int) :
    preRankingActive t = true ↔ 30 ≤ minuteOfHour t ∧ minuteOfHour t ≤ 45 := by
  simp only [preRankingActive, Bool.not_eq_true', Bool.or_eq_false_iff,
    decide_eq_false_iff_not, not_lt]

/-- Claim C1 (counterexample): an exception raised by the collector for the
first symbol aborts the loop, so the sibling symbol is never processed and
the exception escapes — processing does not continue with the next unit of
work. -/
theorem fetcher_failure_skips_sibling_symbol :
    (runSymbolLoop
        (fun s : String => if s = "BTC_USDT" then .error .runtimeError else .ok ())
        ["BTC_USDT", "ETH_USDT"]).1 ≠ ["BTC_USDT", "ETH_USDT"] ∧
      (runSymbolLoop
        (fun s : String => if s = "BTC_USDT" then .error .runtimeError else .ok ())
        ["BTC_USDT", "ETH_USDT"]).2 = some PyErr.runtimeError := by
  constructor <;> decide

/-- Claim C1 (amended): only the Symbol Ranker contains its failures
(fetch_top_symbols returns an empty list when its body raises). An exception
raised while processing one symbol in the collection phase aborts the
remaining sibling symbols (the loop stops at the failing symbol), aborts the
remaining settlement instants, and propagates out of the invocation; within
collect_and_save_data a failing resolution fetch likewise escapes at once. -/
theorem failure_propagation_characterisation :
    (∀ e : PyErr, fetchTopSymbolsRescue (.error e) = []) ∧
      (∀ (α : Type) (collect : α → Except PyErr Unit) (pre : List α) (s : α)
          (post : List α) (e : PyErr), (∀ x ∈ pre, collect x = .ok ()) →
          collect s = .error e →
          runSymbolLoop collect (pre ++ s :: post) = (pre ++ [s], some e)) ∧
      (∀ (parseFloat : Str → Option ℚ) (fs : Int → Option Str)
          (collect : CacheEntry → Except PyErr Unit) (now ft : Int)
          (rest : List Int) (attempted : List CacheEntry) (e : PyErr),
          15 ≤ minutesSince now ft → minutesSince now ft ≤ 30 →
          collectForInstant parseFloat (fs ft) collect = (attempted, some e) →
          postCollectionPhase parseFloat fs collect now (ft :: rest) =
            (attempted, some e)) ∧
      (∀ (fetchRes : String → Except PyErr Unit) (saveStep : Except PyErr Unit)
          (e : PyErr), fetchRes "Day1" = .error e →
          collect_and_save_data fetchRes saveStep = .error e) := by
  refine ⟨fun e => rfl, ?_, ?_, ?_⟩
  · intro α collect pre s post e hpre hs
    induction pre with
    | nil => simp [runSymbolLoop, hs]
    | cons x xs ih =>
      have hx : collect x = .ok () := hpre x (by simp)
      have ih' := ih fun y hy => hpre y (by simp [hy])
      simp only [List.cons_append, runSymbolLoop, hx, List.append_eq]
      rw [ih']
  · intro parseFloat fs collect now ft rest attempted e h15 h30 hc
    unfold postCollectionPhase
    rw [if_pos ⟨h15, h30⟩, hc]
  · intro fetchRes saveStep e hf
    simp [collect_and_save_data, hf, Bind.bind, Except.bind]

/-- Claim C1 (witness for the amended theorem): concrete instances of all
four conjuncts. -/
theorem failure_propagation_witness :
    runSymbolLoop
        (fun s : String => if s = "A" then .ok () else .error .runtimeError)
        (["A"] ++ "B" :: ["C"]) = (["A"] ++ ["B"], some .runtimeError) ∧
      postCollectionPhase (fun _ => none) (fun _ => some ("X,1\n".toList))
        (fun _ => .ok ()) 1200000000 [0] = ([], some .typeError) ∧
      collect_and_save_data (fun _ => .error .valueError) (.ok ()) =
        .error .valueError := by
  refine ⟨?_, ?_, ?_⟩
  · exact failure_propagation_characterisation.2.1 String
      (fun s => if s = "A" then .ok () else .error .runtimeError)
      ["A"] "B" ["C"] .runtimeError (by decide) (by decide)
  · exact failure_propagation_characterisation.2.2.1 (fun _ => none)
      (fun _ => some ("X,1\n".toList)) (fun _ => .ok ()) 1200000000 0 []
      [] .typeError (by norm_num [minutesSince]) (by norm_num [minutesSince])
      (by decide)
  · exact failure_propagation_characterisation.2.2.2
      (fun _ => .error .valueError) (.ok ()) .valueError rfl

/-- Claim C2 (code evaluation): the ranking-phase store step always raises
TypeError on a non-empty ranking result, because fetch_top_symbols returns
bare symbol strings while cache_top_symbols subscripts each element with the
key symbol; no delimited line is ever written. -/
theorem ranking_store_raises_on_symbols (printRate : ℚ → Str)
    (symbols : List String) (h : symbols ≠ []) :
    rankingStoreStep printRate symbols = .error .typeError := by
  cases symbols with
  | nil => exact absurd rfl h
  | cons s rest =>
    simp [rankingStoreStep, cache_top_symbols, cacheLine, List.mapM,
      List.mapM.loop, Bind.bind, Except.bind, Except.map]

/-- Claim C2 (witness): the store step raises on the concrete ranking result
containing one symbol. -/
theorem ranking_store_raises_witness :
    (["BTC_USDT"] : List String) ≠ [] ∧
      rankingStoreStep (fun _ => []) ["BTC_USDT"] = .error .typeError :=
  ⟨by decide, ranking_store_raises_on_symbols (fun _ => []) ["BTC_USDT"] (by decide)⟩

/-- Claim C3 (code evaluation): for a scheduled instant inside the [15, 30]
minutes-since window whose cache file yields a non-empty entry list, the
collection phase raises TypeError (the dict entries returned by
load_cached_symbols reach a string join in the log call) and the
Multi-Timeframe Fetcher is invoked zero times, not once per entry. -/
theorem collection_raises_on_cached_entries (parseFloat : Str → Option ℚ)
    (fs : Int → Option Str) (collect : CacheEntry → Except PyErr Unit)
    (now ft : Int) (content : Str) (hfs : fs ft = some content)
    (hload : load_cached_symbols parseFloat content ≠ [])
    (h15 : 15 ≤ minutesSince now ft) (h30 : minutesSince now ft ≤ 30) :
    postCollectionPhase parseFloat fs collect now [ft] = ([], some .typeError) := by
  unfold postCollectionPhase
  rw [if_pos ⟨h15, h30⟩]
  have hjoin : collectForInstant parseFloat (fs ft) collect = ([], some .typeError) := by
    rcases hl : load_cached_symbols parseFloat content with _ | ⟨x, xs⟩
    · exact absurd hl hload
    · simp only [collectForInstant, load_cached_symbols_fs, hfs, hl]
      simp [pyJoin, pyJoinElem, List.mapM, List.mapM.loop, Bind.bind,
        Except.bind, Except.map]
  rw [hjoin]

/-- Claim C3 (witness): a concrete cache file with one entry, twenty minutes
after its settlement instant. -/
theorem collection_raises_witness :
    (fun _ : Int => some ("BTC_USDT,0.0001\n".toList)) 0 =
        some ("BTC_USDT,0.0001\n".toList) ∧
      load_cached_symbols (fun _ => none) ("BTC_USDT,0.0001\n".toList) ≠ [] ∧
      15 ≤ minutesSince 1200000000 0 ∧ minutesSince 1200000000 0 ≤ 30 ∧
      postCollectionPhase (fun _ => none)
        (fun _ => some ("BTC_USDT,0.0001\n".toList)) (fun _ => .ok ())
        1200000000 [0] = ([], some .typeError) := by
  refine ⟨rfl, by decide, by norm_num [minutesSince], by norm_num [minutesSince], ?_⟩
  exact collection_raises_on_cached_entries (fun _ => none)
    (fun _ => some ("BTC_USDT,0.0001\n".toList)) (fun _ => .ok ()) 1200000000 0
    ("BTC_USDT,0.0001\n".toList) rfl (by decide)
    (by norm_num [minutesSince]) (by norm_num [minutesSince])

/-- Claim C10: a cache-file line with at least two comma-separated fields
whose second field float() rejects is neither skipped nor an error: the
parsed entry keeps the first field as symbol with fundingRate defaulted
to 0. -/
theorem unparseable_rate_defaults_to_zero (parseFloat : Str → Option ℚ)
    (line p0 p1 : Str) (rest : List Str)
    (hsplit : pySplitChar ',' (pyStrip line) = p0 :: p1 :: rest)
    (hbad : parseFloat p1 = none) :
    parseCacheLine parseFloat line = some ⟨p0, 0⟩ := by
  unfold parseCacheLine
  rw [hsplit]
  simp [hbad]

/-- Claim C10 (witness): the line BTC_USDT,abc with a float parser that
rejects abc yields the entry (BTC_USDT, 0). -/
theorem unparseable_rate_witness :
    pySplitChar ',' (pyStrip "BTC_USDT,abc".toList) =
        "BTC_USDT".toList :: "abc".toList :: [] ∧
      (fun _ : Str => (none : Option ℚ)) "abc".toList = none ∧
      parseCacheLine (fun _ => none) "BTC_USDT,abc".toList =
        some ⟨"BTC_USDT".toList, 0⟩ :=
  ⟨by decide, rfl,
    unparseable_rate_defaults_to_zero (fun _ => none) "BTC_USDT,abc".toList
      "BTC_USDT".toList "abc".toList [] (by decide) rfl⟩

/-- The unsorted instant list built by get_next_funding_times. -/
def fundingTimesBase (t : Int) : List Int :=
  (List.range 24).map (fun h : Nat => dayStartOf t + (h : Int) * usPerHour)
    ++ [dayStartOf t - usPerHour, dayStartOf t + 24 * usPerHour]

theorem get_next_funding_times_perm (t : Int) :
    (get_next_funding_times t).Perm (fundingTimesBase t) :=
  List.perm_insertionSort _ _

theorem fundingTimesBase_nodup (t : Int) : (fundingTimesBase t).Nodup := by
  have hH : (usPerHour : Int) = 3600000000 := rfl
  have hinj : Function.Injective (fun h : Nat => dayStartOf t + (h : Int) * usPerHour) := by
    intro a b hab
    dsimp only at hab
    have h1 : (a : Int) * usPerHour = (b : Int) * usPerHour := add_left_cancel hab
    have h2 : (a : Int) = (b : Int) := by
      rw [hH] at h1
      omega
    exact_mod_cast h2
  unfold fundingTimesBase
  rw [List.nodup_append]
  refine ⟨List.Nodup.map hinj (List.nodup_range 24), ?_, ?_⟩
  · refine List.nodup_cons.mpr ⟨?_, List.nodup_singleton _⟩
    intro hmem
    rw [List.mem_singleton] at hmem
    rw [hH] at hmem
    omega
  · intro x hx hmem
    rcases List.mem_map.mp hx with ⟨h, hh, rfl⟩
    have hh24 : h < 24 := List.mem_range.mp hh
    rw [List.mem_cons, List.mem_singleton] at hmem
    rcases hmem with h1 | h2
    · rw [hH] at h1
      omega
    · rw [hH] at h2
      omega

/-- Claim C7: get_next_funding_times returns exactly the 24 hour-boundary
instants of the reference instant's UTC day together with 23:00 of the
previous day (one hour before midnight) and 00:00 of the next day (24 hours
after midnight) — a permutation of that canonical list, with no duplicates —
and every returned instant is an exact hour boundary (minute, second and
microsecond all zero). -/
theorem scheduled_instants_spec (t : Int) :
    (get_next_funding_times t).Perm (fundingTimesBase t) ∧
      (get_next_funding_times t).Nodup ∧
      (∀ x ∈ get_next_funding_times t,
        (x = dayStartOf t - usPerHour ∨ x = dayStartOf t + 24 * usPerHour ∨
          ∃ h : Nat, h < 24 ∧ x = dayStartOf t + (h : Int) * usPerHour)) ∧
      ∀ x ∈ get_next_funding_times t, x.emod usPerHour = 0 := by
  have hperm := get_next_funding_times_perm t
  refine ⟨hperm, (hperm.nodup_iff).mpr (fundingTimesBase_nodup t), ?_, ?_⟩
  · intro x hx
    have hb : x ∈ fundingTimesBase t := hperm.mem_iff.mp hx
    unfold fundingTimesBase at hb
    rcases List.mem_append.mp hb with hl | hr
    · rcases List.mem_map.mp hl with ⟨h, hh, rfl⟩
      exact Or.inr (Or.inr ⟨h, List.mem_range.mp hh, rfl⟩)
    · simp only [List.mem_cons, List.mem_singleton, List.not_mem_nil, or_false] at hr
      rcases hr with h1 | h2
      · exact Or.inl h1
      · exact Or.inr (Or.inl h2)
  · intro x hx
    have hdvd : usPerHour ∣ dayStartOf t :=
      ⟨t.fdiv usPerDay * 24, by unfold dayStartOf usPerDay usPerHour; ring⟩
    have hb : x ∈ fundingTimesBase t := hperm.mem_iff.mp hx
    unfold fundingTimesBase at hb
    rcases List.mem_append.mp hb with hl | hr
    · rcases List.mem_map.mp hl with ⟨h, _, rfl⟩
      exact Int.emod_eq_zero_of_dvd (dvd_add hdvd (dvd_mul_left _ _))
    · rw [List.mem_cons, List.mem_singleton] at hr
      rcases hr with h1 | h2
      · subst h1
        exact Int.emod_eq_zero_of_dvd (dvd_sub hdvd dvd_rfl)
      · subst h2
        exact Int.emod_eq_zero_of_dvd (dvd_add hdvd (dvd_mul_left _ _))

theorem selectSymbols_eq_filter_take (qual : Quote → Bool) (topN : Nat) :
    ∀ (l : List Quote) (k : Nat), k < topN →
      selectSymbols qual topN l k = ((l.filter qual).take (topN - k)).map Quote.symbol := by
  intro l
  induction l with
  | nil => intro k _; simp [selectSymbols]
  | cons q rest ih =>
    intro k hk
    by_cases hq : qual q
    · by_cases hbreak : topN ≤ k + 1
      · have h1 : topN - k = 1 := by omega
        simp [selectSymbols, hq, hbreak, h1]
      · have hk1 : k + 1 < topN := by omega
        have h2 : topN - k = (topN - (k + 1)) + 1 := by omega
        simp only [selectSymbols, hq, if_true, hbreak, if_false]
        rw [List.filter_cons_of_pos hq, h2, List.take_succ_cons, List.map_cons,
          ih (k + 1) hk1]
    · simp only [selectSymbols, hq]
      rw [List.filter_cons_of_neg (by simp [hq]), ih k hk]
      simp [hq]

/-- Claim C8: fetch_top_symbols returns at most topN symbols, with no
duplicates when the collaborator's quotes carry pairwise-distinct symbols
(as the per-symbol gathering guarantees), and the returned symbols are the
symbols of a descending-|fundingRate| sublist of the sorted quotes, each of
whose effective settlement times is positive with minutes-until-settlement
strictly greater than minM and at most maxM. -/
theorem fetch_top_symbols_spec (symbolUniverse : List String)
    (allRates : List Quote) (lookup : String → Int) (nowSec : ℚ) (topN : Nat)
    (minM maxM : ℚ) (hnd : (allRates.map Quote.symbol).Nodup) :
    (fetch_top_symbols symbolUniverse allRates lookup nowSec topN minM maxM).length ≤ topN ∧
      (fetch_top_symbols symbolUniverse allRates lookup nowSec topN minM maxM).Nodup ∧
      ∃ qs : List Quote,
        fetch_top_symbols symbolUniverse allRates lookup nowSec topN minM maxM =
            qs.map Quote.symbol ∧
          qs.Pairwise absRateGE ∧
          ∀ q ∈ qs, 0 < effectiveSettleTime lookup q ∧
            minM < minutesUntilFunding (effectiveSettleTime lookup q) nowSec ∧
            minutesUntilFunding (effectiveSettleTime lookup q) nowSec ≤ maxM := by
  have hperm : (List.insertionSort absRateGE allRates).Perm allRates :=
    List.perm_insertionSort _ _
  have hsorted : (List.insertionSort absRateGE allRates).Pairwise absRateGE :=
    List.sorted_insertionSort absRateGE allRates
  rcases htop : topN with _ | n
  · have : fetch_top_symbols symbolUniverse allRates lookup nowSec 0 minM maxM = [] := by
      simp [fetch_top_symbols, get_top_funding_rates, selectSymbols]
    rw [this]
    exact ⟨by simp, List.nodup_nil, ⟨[], by simp, List.Pairwise.nil, by simp⟩⟩
  · rw [← htop]
    have hpos : 0 < topN := by omega
    set S := List.insertionSort absRateGE allRates with hS
    set T := S.take (min (topN * 5) symbolUniverse.length) with hT
    set qual : Quote → Bool :=
      fun q => fundingWindowOk minM maxM nowSec (effectiveSettleTime lookup q) with hqual
    have heq : fetch_top_symbols symbolUniverse allRates lookup nowSec topN minM maxM =
        ((T.filter qual).take topN).map Quote.symbol := by
      rw [fetch_top_symbols, selectSymbols_eq_filter_take qual topN _ 0 hpos]
      simp [get_top_funding_rates]
    set qs : List Quote := (T.filter qual).take topN with hqs
    have hsub : qs.Sublist S :=
      ((List.take_sublist _ _).trans (List.filter_sublist _)).trans (List.take_sublist _ _)
    refine ⟨?_, ?_, qs, heq, ?_, ?_⟩
    · rw [heq, List.length_map]
      exact List.length_take_le _ _
    · rw [heq]
      refine List.Nodup.sublist (List.Sublist.map Quote.symbol hsub) ?_
      exact ((hperm.map Quote.symbol).nodup_iff).mpr hnd
    · exact hsorted.sublist hsub
    · intro q hq
      have hmem : q ∈ T.filter qual := List.mem_of_mem_take hq
      have hq2 : qual q = true := (List.mem_filter.mp hmem).2
      rw [hqual] at hq2
      simp only [fundingWindowOk, Bool.and_eq_true, decide_eq_true_eq] at hq2
      exact ⟨hq2.1.1, hq2.1.2, hq2.2⟩

/-- Claim C8 (witness): three distinct-symbol quotes, each settling 20
minutes after now, with topN 3 and window (15, 30]. -/
theorem fetch_top_symbols_spec_witness :
    (([⟨"BTC_USDT", 1/1000, 1200000⟩, ⟨"ETH_USDT", 8/10000, 1200000⟩,
        ⟨"SOL_USDT", 6/10000, 1200000⟩] : List Quote).map Quote.symbol).Nodup ∧
      ((fetch_top_symbols ["BTC_USDT", "ETH_USDT", "SOL_USDT", "OTHER_USDT"]
          [⟨"BTC_USDT", 1/1000, 1200000⟩, ⟨"ETH_USDT", 8/10000, 1200000⟩,
            ⟨"SOL_USDT", 6/10000, 1200000⟩] (fun _ => 0) 0 3 15 30).length ≤ 3 ∧
        (fetch_top_symbols ["BTC_USDT", "ETH_USDT", "SOL_USDT", "OTHER_USDT"]
          [⟨"BTC_USDT", 1/1000, 1200000⟩, ⟨"ETH_USDT", 8/10000, 1200000⟩,
            ⟨"SOL_USDT", 6/10000, 1200000⟩] (fun _ => 0) 0 3 15 30).Nodup ∧
        ∃ qs : List Quote,
          fetch_top_symbols ["BTC_USDT", "ETH_USDT", "SOL_USDT", "OTHER_USDT"]
            [⟨"BTC_USDT", 1/1000, 1200000⟩, ⟨"ETH_USDT", 8/10000, 1200000⟩,
              ⟨"SOL_USDT", 6/10000, 1200000⟩] (fun _ => 0) 0 3 15 30 =
              qs.map Quote.symbol ∧
            qs.Pairwise absRateGE ∧
            ∀ q ∈ qs, 0 < effectiveSettleTime (fun _ => 0) q ∧
              15 < minutesUntilFunding (effectiveSettleTime (fun _ => 0) q) 0 ∧
              minutesUntilFunding (effectiveSettleTime (fun _ => 0) q) 0 ≤ 30) :=
  ⟨by decide,
    fetch_top_symbols_spec ["BTC_USDT", "ETH_USDT", "SOL_USDT", "OTHER_USDT"]
      [⟨"BTC_USDT", 1/1000, 1200000⟩, ⟨"ETH_USDT", 8/10000, 1200000⟩,
        ⟨"SOL_USDT", 6/10000, 1200000⟩] (fun _ => 0) 0 3 15 30 (by decide)⟩

theorem pySplitChar_of_not_mem {sep : Char} {l : Str} (h : sep ∉ l) :
    pySplitChar sep l = [l] := by
  induction l with
  | nil => rfl
  | cons c rest ih =>
    have hc : c ≠ sep := fun hc => h (hc ▸ List.mem_cons_self c rest)
    have hr : sep ∉ rest := fun hr => h (List.mem_cons_of_mem c hr)
    rw [pySplitChar, ih hr]
    simp [hc]

theorem pySplitChar_ne_nil (sep : Char) (l : Str) : pySplitChar sep l ≠ [] := by
  cases l with
  | nil => simp [pySplitChar]
  | cons c rest =>
    rw [pySplitChar]
    rcases h : pySplitChar sep rest with _ | ⟨g, gs⟩
    · simp
    · by_cases hc : c = sep <;> simp [hc]

theorem pySplitChar_append_sep {sep : Char} {l₁ : Str} (l₂ : Str) (h : sep ∉ l₁) :
    pySplitChar sep (l₁ ++ sep :: l₂) = l₁ :: pySplitChar sep l₂ := by
  induction l₁ with
  | nil =>
    simp only [List.nil_append]
    rw [pySplitChar]
    rcases hs : pySplitChar sep l₂ with _ | ⟨g, gs⟩
    · exact absurd hs (pySplitChar_ne_nil sep l₂)
    · simp
  | cons c rest ih =>
    have hc : c ≠ sep := fun hc => h (hc ▸ List.mem_cons_self c rest)
    have hr : sep ∉ rest := fun hr => h (List.mem_cons_of_mem c hr)
    rw [List.cons_append, pySplitChar, ih hr]
    simp [hc]

theorem pyReadlines_line {l : Str} (rest : Str) (h : '\n' ∉ l) :
    pyReadlines (l ++ '\n' :: rest) = (l ++ ['\n']) :: pyReadlines rest := by
  induction l with
  | nil => simp [pyReadlines]
  | cons c cs ih =>
    have hc : c ≠ '\n' := fun hc => h (hc ▸ List.mem_cons_self c cs)
    have hr : '\n' ∉ cs := fun hr => h (List.mem_cons_of_mem c hr)
    rw [List.cons_append, pyReadlines, if_neg hc, ih hr]
    simp

theorem dropWhile_false_of_all {p : Char → Bool} :
    ∀ {l : Str}, (∀ c ∈ l, p c = false) → l.dropWhile p = l := by
  intro l
  induction l with
  | nil => intro _; rfl
  | cons c cs _ =>
    intro h
    rw [List.dropWhile_cons, h c (List.mem_cons_self c cs)]
    simp

theorem pyStrip_line {l : Str} (hne : l ≠ [])
    (hws : ∀ c ∈ l, pyIsSpace c = false) : pyStrip (l ++ ['\n']) = l := by
  have hdrop1 : (l ++ ['\n']).dropWhile pyIsSpace = l ++ ['\n'] := by
    rcases l with _ | ⟨c, cs⟩
    · exact absurd rfl hne
    · rw [List.cons_append, List.dropWhile_cons, hws c (List.mem_cons_self c cs)]
      simp
  unfold pyStrip
  rw [hdrop1, List.reverse_append]
  simp only [List.reverse_cons, List.reverse_nil, List.nil_append, List.singleton_append]
  rw [List.dropWhile_cons, if_pos (show pyIsSpace '\n' = true from rfl)]
  rw [dropWhile_false_of_all (fun c hc => hws c (by simpa using hc))]
  simp

/-- Concatenated cache-file content written for a list of entries: one
symbol,rate line per entry. -/
def cacheFileContent (printRate : ℚ → Str) (entries : List CacheEntry) : Str :=
  (entries.map fun e => e.symbol ++ [','] ++ printRate e.fundingRate ++ ['\n']).foldr
    (· ++ ·) []

theorem cache_top_symbols_pdict (printRate : ℚ → Str) (entries : List CacheEntry) :
    cache_top_symbols printRate (entries.map PyVal.pdict) =
      .ok (cacheFileContent printRate entries) := by
  have key : ∀ es : List CacheEntry,
      (es.map PyVal.pdict).mapM (cacheLine printRate) =
        .ok (es.map fun e => e.symbol ++ [','] ++ printRate e.fundingRate ++ ['\n']) := by
    intro es
    induction es with
    | nil => rfl
    | cons e rest ih =>
      rw [List.map_cons, List.mapM_cons, ih]
      rfl
  rw [cache_top_symbols, key]
  rfl

/-- Claim C6: the Snapshot Cache round-trips: storing a list of
symbol/fundingRate entries and loading the resulting file content returns the
same entries, provided the symbols and the printed rates contain no comma,
newline or whitespace character and the rate serialisation round-trips
(the up-to-float-precision caveat of the claim). -/
theorem cache_roundtrip (printRate : ℚ → Str) (parseFloat : Str → Option ℚ)
    (entries : List CacheEntry)
    (hsym : ∀ e ∈ entries, (∀ c ∈ e.symbol, pyIsSpace c = false) ∧
      ',' ∉ e.symbol ∧ '\n' ∉ e.symbol)
    (hrate : ∀ e ∈ entries, (∀ c ∈ printRate e.fundingRate, pyIsSpace c = false) ∧
      ',' ∉ printRate e.fundingRate ∧ '\n' ∉ printRate e.fundingRate ∧
      parseFloat (printRate e.fundingRate) = some e.fundingRate) :
    cache_top_symbols printRate (entries.map PyVal.pdict) =
        .ok (cacheFileContent printRate entries) ∧
      load_cached_symbols parseFloat (cacheFileContent printRate entries) = entries := by
  refine ⟨cache_top_symbols_pdict printRate entries, ?_⟩
  induction entries with
  | nil => rfl
  | cons e rest ih =>
    rcases hsym e (List.mem_cons_self e rest) with ⟨hsw, hsc, hsn⟩
    rcases hrate e (List.mem_cons_self e rest) with ⟨hrw, hrc, hrn, hrt⟩
    have ihr := ih (fun x hx => hsym x (List.mem_cons_of_mem e hx))
      (fun x hx => hrate x (List.mem_cons_of_mem e hx))
    set l : Str := e.symbol ++ ',' :: printRate e.fundingRate with hl
    have hcontent : cacheFileContent printRate (e :: rest) =
        l ++ '\n' :: cacheFileContent printRate rest := by
      rw [cacheFileContent, List.map_cons, List.foldr_cons, hl]
      simp [cacheFileContent]
    have hnl : '\n' ∉ l := by
      rw [hl]
      intro hmem
      rcases List.mem_append.mp hmem with h1 | h2
      · exact hsn h1
      · rcases List.mem_cons.mp h2 with h3 | h4
        · exact absurd h3 (by decide)
        · exact hrn h4
    have hlw : ∀ c ∈ l, pyIsSpace c = false := by
      intro c hc
      rw [hl] at hc
      rcases List.mem_append.mp hc with h1 | h2
      · exact hsw c h1
      · rcases List.mem_cons.mp h2 with h3 | h4
        · rw [h3]; rfl
        · exact hrw c h4
    have hlne : l ≠ [] := by
      rw [hl]
      intro hemp
      have := congrArg List.length hemp
      simp at this
    rw [load_cached_symbols, hcontent, pyReadlines_line _ hnl, List.filterMap_cons]
    have hparse : parseCacheLine parseFloat (l ++ ['\n']) = some e := by
      rw [parseCacheLine, pyStrip_line hlne hlw, hl,
        pySplitChar_append_sep _ hsc, pySplitChar_of_not_mem hrc]
      simp [hrt]
    rw [hparse]
    exact congrArg (e :: ·) ihr

/-- Claim C6 (witness): one concrete entry round-trips with a serialisation
pair that round-trips on its rate. -/
theorem cache_roundtrip_witness :
    (∀ e ∈ [(⟨"BTC_USDT".toList, 5⟩ : CacheEntry)],
        (∀ c ∈ e.symbol, pyIsSpace c = false) ∧ ',' ∉ e.symbol ∧ '\n' ∉ e.symbol) ∧
      (∀ e ∈ [(⟨"BTC_USDT".toList, 5⟩ : CacheEntry)],
        (∀ c ∈ (fun q : ℚ => if q = 5 then ['5'] else ['0']) e.fundingRate,
            pyIsSpace c = false) ∧
          ',' ∉ (fun q : ℚ => if q = 5 then ['5'] else ['0']) e.fundingRate ∧
          '\n' ∉ (fun q : ℚ => if q = 5 then ['5'] else ['0']) e.fundingRate ∧
          (fun s : Str => if s = ['5'] then some (5 : ℚ) else none)
              ((fun q : ℚ => if q = 5 then ['5'] else ['0']) e.fundingRate) =
            some e.fundingRate) ∧
      cache_top_symbols (fun q : ℚ => if q = 5 then ['5'] else ['0'])
          ([(⟨"BTC_USDT".toList, 5⟩ : CacheEntry)].map PyVal.pdict) =
        .ok (cacheFileContent (fun q : ℚ => if q = 5 then ['5'] else ['0'])
          [(⟨"BTC_USDT".toList, 5⟩ : CacheEntry)]) ∧
      load_cached_symbols (fun s : Str => if s = ['5'] then some (5 : ℚ) else none)
          (cacheFileContent (fun q : ℚ => if q = 5 then ['5'] else ['0'])
            [(⟨"BTC_USDT".toList, 5⟩ : CacheEntry)]) =
        [(⟨"BTC_USDT".toList, 5⟩ : CacheEntry)] := by
  refine ⟨by decide, by decide, ?_⟩
  exact cache_roundtrip (fun q : ℚ => if q = 5 then ['5'] else ['0'])
    (fun s : Str => if s = ['5'] then some (5 : ℚ) else none)
    [(⟨"BTC_USDT".toList, 5⟩ : CacheEntry)] (by decide) (by decide)

theorem mapM_option_eq_map {α β : Type} (f : α → Option β) (g : α → β) :
    ∀ l : List α, (∀ x ∈ l, f x = some (g x)) → l.mapM f = some (l.map g) := by
  intro l
  induction l with
  | nil => intro _; rfl
  | cons x xs ih =>
    intro h
    rw [List.mapM_cons, h x (List.mem_cons_self x xs),
      ih fun y hy => h y (List.mem_cons_of_mem x hy)]
    rfl

theorem foldr_append_eq_flatten {α : Type} :
    ∀ L : List (List α), L.foldr (· ++ ·) [] = L.flatten := by
  intro L
  induction L with
  | nil => rfl
  | cons l ls ih => rw [List.foldr_cons, ih, List.flatten_cons]

/-- Claim C9: when every bar open time is numeric (a number or a numeric
string), the Sink writes exactly the fixed header row followed by one data
row per (resolution, bar) pair, in input order; each data row carries the
symbol, the funding time's ISO form, the resolution label, and the bar open
time converted from epoch milliseconds to the ISO-8601 UTC timestamp of
ms // 1000 seconds — the same conversion whether the time arrived as a
number or as a numeric string. The total row count is one plus the number of
(resolution, bar) pairs. -/
theorem save_data_to_csv_spec {α : Type} (symbol : Str) (fundingTime : Int)
    (candleData : List (Str × Candles α))
    (htimes : ∀ p ∈ candleData, ∀ bar ∈ barsOf p.2, (timeCellMs bar.1).isSome = true) :
    save_data_to_csv symbol fundingTime candleData =
        some (csvHeader α :: (candleData.map fun p => (barsOf p.2).map fun bar =>
          [Cell.txt symbol, Cell.txt (pyIsoformatUTC fundingTime), Cell.txt p.1,
            Cell.txt (pyIsoformatUTC (((timeCellMs bar.1).getD 0).fdiv 1000 * usPerSecond))]
            ++ bar.2.map Cell.val).flatten) ∧
      (csvHeader α :: (candleData.map fun p => (barsOf p.2).map fun bar =>
          [Cell.txt symbol, Cell.txt (pyIsoformatUTC fundingTime), Cell.txt p.1,
            Cell.txt (pyIsoformatUTC (((timeCellMs bar.1).getD 0).fdiv 1000 * usPerSecond))]
            ++ bar.2.map Cell.val).flatten).length =
        1 + (candleData.map fun p => (barsOf p.2).length).sum := by
  constructor
  · rw [save_data_to_csv]
    have hblocks : candleData.mapM
        (fun p => (barsOf p.2).mapM (csvDataRow symbol fundingTime p.1)) =
        some (candleData.map fun p => (barsOf p.2).map fun bar =>
          [Cell.txt symbol, Cell.txt (pyIsoformatUTC fundingTime), Cell.txt p.1,
            Cell.txt (pyIsoformatUTC (((timeCellMs bar.1).getD 0).fdiv 1000 * usPerSecond))]
            ++ bar.2.map Cell.val) := by
      apply mapM_option_eq_map
      intro p hp
      apply mapM_option_eq_map
      intro bar hbar
      rcases Option.isSome_iff_exists.mp (htimes p hp bar hbar) with ⟨ms, hms⟩
      rw [csvDataRow, hms]
      simp [hms]
    rw [hblocks]
    simp only [Option.map]
    rw [foldr_append_eq_flatten]
  · rw [List.length_cons, List.length_flatten]
    simp only [List.map_map]
    have : (candleData.map fun p => ((barsOf p.2).map fun bar =>
        [Cell.txt symbol, Cell.txt (pyIsoformatUTC fundingTime), Cell.txt p.1,
          Cell.txt (pyIsoformatUTC (((timeCellMs bar.1).getD 0).fdiv 1000 * usPerSecond))]
          ++ bar.2.map Cell.val).length) =
        candleData.map fun p => (barsOf p.2).length := by
      apply List.map_congr_left
      intro p _
      rw [List.length_map]
    rw [show (List.length ∘ fun p : Str × Candles α => (barsOf p.2).map fun bar =>
        [Cell.txt symbol, Cell.txt (pyIsoformatUTC fundingTime), Cell.txt p.1,
          Cell.txt (pyIsoformatUTC (((timeCellMs bar.1).getD 0).fdiv 1000 * usPerSecond))]
          ++ bar.2.map Cell.val) = fun p : Str × Candles α =>
        ((barsOf p.2).map fun bar =>
          [Cell.txt symbol, Cell.txt (pyIsoformatUTC fundingTime), Cell.txt p.1,
            Cell.txt (pyIsoformatUTC (((timeCellMs bar.1).getD 0).fdiv 1000 * usPerSecond))]
            ++ bar.2.map Cell.val).length from rfl, this]
    omega

/-- Claim C9 (witness): one resolution with two bars (one numeric time, one
numeric-string time) and one resolution with one bar yield the header plus
exactly three data rows. -/
theorem save_data_to_csv_witness :
    (∀ p ∈ ([("5m".toList, Candles.rows
            [(TimeCell.num 1700000000000, ([1, 2, 3, 4, 5] : List Int)),
              (TimeCell.str "1700000060000".toList, [6, 7, 8, 9, 10])]),
          ("1h".toList, Candles.rows [(TimeCell.num 1700000000000, [11, 12, 13, 14, 15])])] :
          List (Str × Candles Int)),
        ∀ bar ∈ barsOf p.2, (timeCellMs bar.1).isSome = true) ∧
      (∃ rows, save_data_to_csv "BTC_USDT".toList 1700000900000000
          ([("5m".toList, Candles.rows
              [(TimeCell.num 1700000000000, ([1, 2, 3, 4, 5] : List Int)),
                (TimeCell.str "1700000060000".toList, [6, 7, 8, 9, 10])]),
            ("1h".toList, Candles.rows [(TimeCell.num 1700000000000, [11, 12, 13, 14, 15])])]) =
          some rows ∧ rows.length = 4) := by
  have h := save_data_to_csv_spec "BTC_USDT".toList 1700000900000000
    ([("5m".toList, Candles.rows
        [(TimeCell.num 1700000000000, ([1, 2, 3, 4, 5] : List Int)),
          (TimeCell.str "1700000060000".toList, [6, 7, 8, 9, 10])]),
      ("1h".toList, Candles.rows [(TimeCell.num 1700000000000, [11, 12, 13, 14, 15])])])
    (by decide)
  refine ⟨by decide, ⟨_, h.1, ?_⟩⟩
  rw [h.2]
  decide

theorem digit_isDigit (n : Nat) : (digit n).isDigit = true := by
  unfold digit
  set k := n % 10 with hk
  have h : k < 10 := by
    rw [hk]
    exact Nat.mod_lt _ (by norm_num)
  interval_cases k <;> rfl

theorem ne_of_isDigit_of_not {c a : Char} (hc : c.isDigit = true)
    (ha : a.isDigit = false) : c ≠ a := by
  intro he
  rw [he, ha] at hc
  exact Bool.noConfusion hc

theorem mem_pad2_isDigit {c : Char} {n : Nat} (h : c ∈ pad2 n) : c.isDigit = true := by
  simp only [pad2, List.mem_cons, List.not_mem_nil, or_false] at h
  rcases h with h | h <;> (subst h; exact digit_isDigit _)

theorem mem_pad4_isDigit {c : Char} {n : Nat} (h : c ∈ pad4 n) : c.isDigit = true := by
  simp only [pad4, List.mem_cons, List.not_mem_nil, or_false] at h
  rcases h with h | h | h | h <;> (subst h; exact digit_isDigit _)

theorem mem_pad6_isDigit {c : Char} {n : Nat} (h : c ∈ pad6 n) : c.isDigit = true := by
  simp only [pad6, List.mem_cons, List.not_mem_nil, or_false] at h
  rcases h with h | h | h | h | h | h <;> (subst h; exact digit_isDigit _)

theorem pyReplaceChar_nil (a b : Char) : pyReplaceChar a b [] = [] := rfl

theorem pyReplaceChar_cons (a b c : Char) (l : Str) :
    pyReplaceChar a b (c :: l) = (if c = a then b else c) :: pyReplaceChar a b l := rfl

theorem pyReplaceChar_append (a b : Char) (l₁ l₂ : Str) :
    pyReplaceChar a b (l₁ ++ l₂) = pyReplaceChar a b l₁ ++ pyReplaceChar a b l₂ :=
  List.map_append _ _ _

theorem pyReplaceChar_of_all_ne (a b : Char) {l : Str} (h : ∀ c ∈ l, c ≠ a) :
    pyReplaceChar a b l = l := by
  induction l with
  | nil => rfl
  | cons c cs ih =>
    rw [pyReplaceChar_cons, if_neg (h c (List.mem_cons_self c cs)),
      ih fun x hx => h x (List.mem_cons_of_mem c hx)]

theorem pyReplaceChar_self (a : Char) (l : Str) : pyReplaceChar a a l = l := by
  induction l with
  | nil => rfl
  | cons c cs ih =>
    rw [pyReplaceChar_cons, ih]
    by_cases hc : c = a
    · rw [if_pos hc, hc]
    · rw [if_neg hc]

theorem pyReplaceCharN_zero (a b : Char) (l : Str) : pyReplaceCharN a b 0 l = l := by
  cases l <;> rfl

theorem pyReplaceCharN_cons_hit (a b : Char) (m : Nat) (l : Str) :
    pyReplaceCharN a b (m + 1) (a :: l) = b :: pyReplaceCharN a b m l := by
  simp [pyReplaceCharN]

theorem pyReplaceCharN_append_of_all_ne (a b : Char) {l₁ : Str} (l₂ : Str)
    (h : ∀ c ∈ l₁, c ≠ a) :
    ∀ n : Nat, pyReplaceCharN a b n (l₁ ++ l₂) = l₁ ++ pyReplaceCharN a b n l₂ := by
  induction l₁ with
  | nil => intro n; rfl
  | cons c cs ih =>
    intro n
    cases n with
    | zero => rw [pyReplaceCharN_zero, pyReplaceCharN_zero]
    | succ m =>
      rw [List.cons_append, pyReplaceCharN, if_neg (h c (List.mem_cons_self c cs)),
        ih (fun x hx => h x (List.mem_cons_of_mem c hx)) (m + 1)]
      rfl

theorem pyReplaceCharN_of_all_ne (a b : Char) {l : Str} (h : ∀ c ∈ l, c ≠ a) :
    ∀ n : Nat, pyReplaceCharN a b n l = l := by
  induction l with
  | nil => intro n; cases n <;> rfl
  | cons c cs ih =>
    intro n
    cases n with
    | zero => rw [pyReplaceCharN_zero]
    | succ m =>
      rw [pyReplaceCharN, if_neg (h c (List.mem_cons_self c cs)),
        ih (fun x hx => h x (List.mem_cons_of_mem c hx)) (m + 1)]

/-- Proof alias for the string pyIsoformatUTC builds, in terms of the civil
components of the instant. -/
def isoShape (y mo dd hh mi ss us : Nat) : Str :=
  pad4 y ++ ['-'] ++ pad2 mo ++ ['-'] ++ pad2 dd ++ ['T'] ++ pad2 hh ++ [':'] ++
    pad2 mi ++ [':'] ++ pad2 ss ++ (if us = 0 then [] else '.' :: pad6 us) ++
    ['+', '0', '0', ':', '0', '0']

theorem pyIsoformatUTC_eq_shape (t : Int) :
    pyIsoformatUTC t =
      isoShape (civilFromDays ((t.fdiv usPerSecond).fdiv 86400)).1.toNat
        (civilFromDays ((t.fdiv usPerSecond).fdiv 86400)).2.1
        (civilFromDays ((t.fdiv usPerSecond).fdiv 86400)).2.2
        (((t.fdiv usPerSecond).emod 86400).toNat / 3600)
        (((t.fdiv usPerSecond).emod 86400).toNat / 60 % 60)
        (((t.fdiv usPerSecond).emod 86400).toNat % 60)
        (t.emod usPerSecond).toNat := rfl

theorem isoShape_chars (y mo dd hh mi ss us : Nat) :
    ∀ c ∈ isoShape y mo dd hh mi ss us,
      c.isDigit = true ∨ c = '-' ∨ c = 'T' ∨ c = ':' ∨ c = '.' ∨ c = '+' := by
  rw [isoShape]
  repeat' refine List.forall_mem_append.mpr ⟨?_, ?_⟩
  all_goals try (intro c hc; exact Or.inl (mem_pad4_isDigit hc))
  all_goals try (intro c hc; exact Or.inl (mem_pad2_isDigit hc))
  all_goals try (intro c hc; fin_cases hc <;> decide)
  intro c hc
  by_cases hus : us = 0
  · rw [if_pos hus] at hc
    exact absurd hc (List.not_mem_nil c)
  · rw [if_neg hus] at hc
    rcases List.mem_cons.mp hc with h | h
    · subst h; decide
    · exact Or.inl (mem_pad6_isDigit h)

theorem not_mem_isoSafe_underscore (y mo dd hh mi ss us : Nat) :
    '_' ∉ pyReplaceChar ':' '-' (isoShape y mo dd hh mi ss us) := by
  intro hmem
  unfold pyReplaceChar at hmem
  rcases List.mem_map.mp hmem with ⟨d, hd, hfd⟩
  by_cases hdc : d = ':'
  · rw [if_pos hdc] at hfd
    exact absurd hfd (by decide)
  · rw [if_neg hdc] at hfd
    subst hfd
    rcases isoShape_chars y mo dd hh mi ss us _ hd with h | h | h | h | h | h <;>
      exact absurd h (by decide)

set_option maxHeartbeats 1000000 in
theorem cleanupIsoStr_isoSafe (y mo dd hh mi ss us : Nat) :
    cleanupIsoStr (pyReplaceChar ':' '-' (isoShape y mo dd hh mi ss us)) =
      pad4 y ++ ':' :: (pad2 mo ++ ':' :: (pad2 dd ++ 'T' :: (pad2 hh ++ ':' ::
        (pad2 mi ++ ':' :: (pad2 ss ++
          ((if us = 0 then [] else '.' :: pad6 us) ++ ['+', '0', '0', ':', '0', '0'])))))) := by
  have hcolonD : (':' : Char).isDigit = false := by decide
  have hhyphD : ('-' : Char).isDigit = false := by decide
  have hp4c : ∀ n, pyReplaceChar ':' '-' (pad4 n) = pad4 n := fun n =>
    pyReplaceChar_of_all_ne _ _ fun c hc =>
      ne_of_isDigit_of_not (mem_pad4_isDigit hc) hcolonD
  have hp2c : ∀ n, pyReplaceChar ':' '-' (pad2 n) = pad2 n := fun n =>
    pyReplaceChar_of_all_ne _ _ fun c hc =>
      ne_of_isDigit_of_not (mem_pad2_isDigit hc) hcolonD
  have hp6c : ∀ n, pyReplaceChar ':' '-' (pad6 n) = pad6 n := fun n =>
    pyReplaceChar_of_all_ne _ _ fun c hc =>
      ne_of_isDigit_of_not (mem_pad6_isDigit hc) hcolonD
  have hfracc : pyReplaceChar ':' '-' (if us = 0 then [] else '.' :: pad6 us) =
      (if us = 0 then [] else '.' :: pad6 us) := by
    by_cases hus : us = 0
    · rw [if_pos hus]
      rfl
    · rw [if_neg hus, pyReplaceChar_cons, if_neg (by decide), hp6c]
  have h1 : pyReplaceChar ':' '-' (isoShape y mo dd hh mi ss us) =
      pad4 y ++ '-' :: (pad2 mo ++ '-' :: (pad2 dd ++ 'T' :: (pad2 hh ++ '-' ::
        (pad2 mi ++ '-' :: (pad2 ss ++
          ((if us = 0 then [] else '.' :: pad6 us) ++ ['+', '0', '0', '-', '0', '0'])))))) := by
    rw [isoShape]
    simp [pyReplaceChar_append, pyReplaceChar_cons, pyReplaceChar_nil,
      hp4c, hp2c, hfracc]
  have hp4h : ∀ (n : Nat) (c : Char), c ∈ pad4 n → c ≠ '-' := fun n c hc =>
    ne_of_isDigit_of_not (mem_pad4_isDigit hc) hhyphD
  have hp2h : ∀ (n : Nat) (c : Char), c ∈ pad2 n → c ≠ '-' := fun n c hc =>
    ne_of_isDigit_of_not (mem_pad2_isDigit hc) hhyphD
  have htwo : ∀ l : Str, pyReplaceCharN '-' ':' 2 ('-' :: l) =
      ':' :: pyReplaceCharN '-' ':' 1 l := by
    intro l
    simp [pyReplaceCharN]
  have hone : ∀ l : Str, pyReplaceCharN '-' ':' 1 ('-' :: l) = ':' :: l := by
    intro l
    simp [pyReplaceCharN, pyReplaceCharN_zero]
  have h2 : pyReplaceCharN '-' ':' 2
      (pad4 y ++ '-' :: (pad2 mo ++ '-' :: (pad2 dd ++ 'T' :: (pad2 hh ++ '-' ::
        (pad2 mi ++ '-' :: (pad2 ss ++
          ((if us = 0 then [] else '.' :: pad6 us) ++ ['+', '0', '0', '-', '0', '0']))))))) =
      pad4 y ++ ':' :: (pad2 mo ++ ':' :: (pad2 dd ++ 'T' :: (pad2 hh ++ '-' ::
        (pad2 mi ++ '-' :: (pad2 ss ++
          ((if us = 0 then [] else '.' :: pad6 us) ++ ['+', '0', '0', '-', '0', '0'])))))) := by
    rw [pyReplaceCharN_append_of_all_ne _ _ _ (fun c hc => hp4h y c hc), htwo,
      pyReplaceCharN_append_of_all_ne _ _ _ (fun c hc => hp2h mo c hc), hone]
  have h3 : pyReplaceChar '-' ':'
      (pad4 y ++ ':' :: (pad2 mo ++ ':' :: (pad2 dd ++ 'T' :: (pad2 hh ++ '-' ::
        (pad2 mi ++ '-' :: (pad2 ss ++
          ((if us = 0 then [] else '.' :: pad6 us) ++ ['+', '0', '0', '-', '0', '0']))))))) =
      pad4 y ++ ':' :: (pad2 mo ++ ':' :: (pad2 dd ++ 'T' :: (pad2 hh ++ ':' ::
        (pad2 mi ++ ':' :: (pad2 ss ++
          ((if us = 0 then [] else '.' :: pad6 us) ++ ['+', '0', '0', ':', '0', '0'])))))) := by
    have hp4m : ∀ n, pyReplaceChar '-' ':' (pad4 n) = pad4 n := fun n =>
      pyReplaceChar_of_all_ne _ _ (hp4h n)
    have hp2m : ∀ n, pyReplaceChar '-' ':' (pad2 n) = pad2 n := fun n =>
      pyReplaceChar_of_all_ne _ _ (hp2h n)
    have hfracm : pyReplaceChar '-' ':' (if us = 0 then [] else '.' :: pad6 us) =
        (if us = 0 then [] else '.' :: pad6 us) := by
      by_cases hus : us = 0
      · rw [if_pos hus]
        rfl
      · rw [if_neg hus, pyReplaceChar_cons, if_neg (by decide),
          pyReplaceChar_of_all_ne _ _ fun c hc =>
            ne_of_isDigit_of_not (mem_pad6_isDigit hc) hhyphD]
    simp [pyReplaceChar_append, pyReplaceChar_cons, pyReplaceChar_nil,
      hp4m, hp2m, hfracm]
  have hfrach : ∀ c ∈ (if us = 0 then [] else '.' :: pad6 us), c ≠ '-' := by
    intro c hc
    by_cases hus : us = 0
    · rw [if_pos hus] at hc
      exact absurd hc (List.not_mem_nil c)
    · rw [if_neg hus] at hc
      rcases List.mem_cons.mp hc with h | h
      · subst h; decide
      · exact ne_of_isDigit_of_not (mem_pad6_isDigit h) hhyphD
  have hnohyph : ∀ c ∈ pad4 y ++ ':' :: (pad2 mo ++ ':' :: (pad2 dd ++ 'T' ::
      (pad2 hh ++ ':' :: (pad2 mi ++ ':' :: (pad2 ss ++
        ((if us = 0 then [] else '.' :: pad6 us) ++ ['+', '0', '0', ':', '0', '0'])))))),
      c ≠ '-' := by
    repeat' first
      | refine List.forall_mem_append.mpr ⟨?_, ?_⟩
      | refine List.forall_mem_cons.mpr ⟨?_, ?_⟩
    all_goals try exact hfrach
    all_goals try exact ne_of_isDigit_of_not (digit_isDigit _) hhyphD
    all_goals decide
  rw [cleanupIsoStr, h1, h2, h3, pyReplaceChar_self,
    pyReplaceCharN_of_all_ne _ _ hnohyph]

theorem pyFromIso_colon_sep (y1 y2 y3 y4 m1 m2 sep2 d1 d2 : Char) (rest : Str) :
    pyFromIso (y1 :: y2 :: y3 :: y4 :: ':' :: m1 :: m2 :: sep2 :: d1 :: d2 :: rest) =
      none := by
  simp [pyFromIso]

/-- Claim C4 (code evaluation): cleanup_old_caches never deletes any file
written by cache_top_symbols, whatever the cutoff: the replace chain at line
101 converts the first two hyphens of the embedded timestamp — which are the
date separators, since the colon-to-hyphen substitution of the store only
affected the time part — so the reconstructed string has colons in its date
part and datetime.fromisoformat raises ValueError, which the bare except
swallows, skipping the file. (The second half of the claim, that malformed
filenames never raise, does hold: the except swallows everything, which is
exactly why the deletion half fails silently.) -/
theorem cleanup_never_deletes_stored (t cutoffUs : Int) :
    cleanupDeletesFile (cacheFilenameStr t) cutoffUs = false := by
  have hstem : stemOfTxt (cacheFilenameStr t) =
      "top3symbols_".toList ++ safeTimestamp t := by
    have h1 : cacheFilenameStr t =
        ("top3symbols_".toList ++ safeTimestamp t) ++ ".txt".toList := by
      rw [cacheFilenameStr, List.append_assoc]
    rw [stemOfTxt, h1]
    have hlen : (("top3symbols_".toList ++ safeTimestamp t) ++ ".txt".toList).length - 4 =
        ("top3symbols_".toList ++ safeTimestamp t).length := by
      simp [List.length_append]
    rw [hlen, List.take_left]
  have hunder : '_' ∉ safeTimestamp t := by
    rw [safeTimestamp, pyIsoformatUTC_eq_shape]
    exact not_mem_isoSafe_underscore _ _ _ _ _ _ _
  have hsplit : (pySplitChar '_' (stemOfTxt (cacheFilenameStr t))).getLastD [] =
      safeTimestamp t := by
    rw [hstem]
    rw [show "top3symbols_".toList ++ safeTimestamp t =
      "top3symbols".toList ++ '_' :: safeTimestamp t from rfl]
    rw [pySplitChar_append_sep _ (by decide), pySplitChar_of_not_mem hunder]
    rfl
  have hparse : cleanupFileTime (cacheFilenameStr t) = none := by
    rw [cleanupFileTime, hsplit, safeTimestamp, pyIsoformatUTC_eq_shape,
      cleanupIsoStr_isoSafe]
    simp only [pad4, pad2, List.cons_append, List.nil_append]
    exact pyFromIso_colon_sep _ _ _ _ _ _ _ _ _ _
  rw [cleanupDeletesFile, hparse]

end FundingRateLogger
